import Mathlib

/-!
A verification development for `src/sessioncounter.py` (class `SIPSessionCounter`).

The Python code is shallowly embedded: message texts are Lean `String`s, the
Python `str` primitives used by the extractors (`find`, slicing, `split`,
`rstrip`, `startswith`, `int(...)`) are modelled over `List Char` with Python
semantics (including `find` returning `-1` and negative slice indices), Python
`dict`/`defaultdict(int)` values are association lists with first-match lookup
(missing keys default to `0`), and Python `set`s are duplicate-free lists.
`int(tok)` can raise `ValueError`; that is modelled by `pyInt` returning
`none`, which propagates as `UpdErr.valueError` out of `update`.  The one
`KeyError` site (`self._callids[callid]["direction"]` in the BYE branch)
is modelled as `UpdErr.keyError`.
-/

/-! ### Python string primitives -/

/-- Python whitespace characters used by `str.split()` / `str.rstrip()`. -/
def pyIsSpace (c : Char) : Bool :=
  c == ' ' || c == '\t' || c == '\n' || c == '\r' || c == Char.ofNat 11 || c == Char.ofNat 12

/-- Python `s.rstrip()`. -/
def pyRstrip (s : List Char) : List Char :=
  (s.reverse.dropWhile pyIsSpace).reverse

/-- Helper for Python `s.find(sub)`: first index `≥ i` at which `sub` occurs. -/
def pyFindFrom (sub : List Char) : List Char → Nat → Int
  | [], i => if sub.isPrefixOf ([] : List Char) then (i : Int) else -1
  | c :: t, i => if sub.isPrefixOf (c :: t) then (i : Int) else pyFindFrom sub t (i + 1)

/-- Python `s.find(sub)`: index of the first occurrence, `-1` if absent. -/
def pyFind (sub s : List Char) : Int :=
  pyFindFrom sub s 0

/-- Python `s.find(sub, start)`: search starting at character index `start`. -/
def pyFindStart (sub s : List Char) (start : Nat) : Int :=
  let r := pyFindFrom sub (s.drop start) 0
  if r = -1 then -1 else r + (start : Int)

/-- Python slice `s[a:b]` for `a : Nat` and a possibly negative `b`
(a negative `b` counts from the end of the string, as in Python). -/
def pySliceInt (s : List Char) (a : Nat) (b : Int) : List Char :=
  let n := s.length
  let stop : Nat := if b < 0 then n - (-b).toNat else min b.toNat n
  (s.take stop).drop a

/-- Fuelled worker for Python `s.split()` (split on whitespace runs,
dropping empty fields).  The fuel is the length of the string, which is
always sufficient. -/
def pySplitFuel : Nat → List Char → List (List Char)
  | _, [] => []
  | 0, _ :: _ => []
  | fuel + 1, c :: t =>
    if pyIsSpace c then pySplitFuel fuel t
    else (c :: t.takeWhile (fun x => !(pyIsSpace x))) ::
      pySplitFuel fuel (t.dropWhile (fun x => !(pyIsSpace x)))

/-- Python `s.split()` with no arguments. -/
def pySplit (s : List Char) : List (List Char) :=
  pySplitFuel s.length s

/-- Digit tail of a Python integer literal: digits, with single underscores
allowed between digits (as accepted by `int(...)`). -/
def pyDigitsAux : Nat → List Char → Option Nat
  | acc, [] => some acc
  | acc, c :: t =>
    if c.isDigit then pyDigitsAux (acc * 10 + (c.toNat - 48)) t
    else if c == '_' then
      match t with
      | c2 :: t2 => if c2.isDigit then pyDigitsAux (acc * 10 + (c2.toNat - 48)) t2 else none
      | [] => none
    else none

/-- Unsigned part of Python `int(tok)`: must start with a digit. -/
def pyNatOfChars : List Char → Option Nat
  | [] => none
  | c :: t => if c.isDigit then pyDigitsAux (c.toNat - 48) t else none

/-- Python `int(tok)` on a whitespace-free token: optional sign followed by
digits.  `none` models the `ValueError` raised on anything else. -/
def pyInt (s : List Char) : Option Int :=
  match s with
  | '+' :: rest => (pyNatOfChars rest).map (fun n => (n : Int))
  | '-' :: rest => (pyNatOfChars rest).map (fun n => -(n : Int))
  | _ => (pyNatOfChars s).map (fun n => (n : Int))

/-! ### The static extractor methods of `SIPSessionCounter` -/

/-- `SIPSessionCounter.reverse_direction`, embedded exactly as written in the
source: note that the final conditional expression returns `"IN"` in **both**
arms (`return "IN" if direction == "OUT" else "IN"`). -/
def reverse_direction (direction : String) : String :=
  if direction = "IN&OUT" then direction
  else if direction = "OUT" then "IN" else "IN"

/-- Tail of `get_callid`: slice from `start` to the next newline (or the end
of the string) and strip trailing whitespace. -/
def get_callid_tail (s : List Char) (start : Nat) : String :=
  let e := pyFindStart ("\n".toList) s start
  let body := if e = -1 then s.drop start else pySliceInt s start e
  String.mk (pyRstrip body)

/-- `SIPSessionCounter.get_callid`: locate `Call-ID:` (or the compact `i:`),
skip the header name plus one character, and return the rest of the line. -/
def get_callid (sipmsg : String) : String :=
  let s := sipmsg.toList
  let f := pyFind ("Call-ID:".toList) s
  if f = -1 then
    let f2 := pyFind ("i:".toList) s
    if f2 = -1 then "" else get_callid_tail s (f2.toNat + 3)
  else get_callid_tail s (f.toNat + 9)

/-- `SIPSessionCounter.get_cseq`: returns `some (-1, "")` when the `CSeq:`
header is missing or does not split into one or two fields, `some (0, m)` for
a lone method token, `some (n, m)` for a number and a method.  `none` models
the uncaught `ValueError` that `int(l[0])` raises when the first field is not
an integer literal. -/
def get_cseq (sipmsg : String) : Option (Int × String) :=
  let s := sipmsg.toList
  let f := pyFind ("CSeq:".toList) s
  if f = -1 then some (-1, "")
  else
    let start := f.toNat + 6
    let e := pyFindStart ("\n".toList) s start
    let body := if e = -1 then s.drop start else pySliceInt s start e
    match pySplit body with
    | [a, b] =>
      match pyInt a with
      | none => none
      | some n => some (n, String.mk (pyRstrip b))
    | [a] => some (0, String.mk (pyRstrip a))
    | _ => some (-1, "")

/-- `SIPSessionCounter.get_statuscode`: the text between the first and second
space of the start line.  When there is no second space, Python's
`sipmsg[start:-1]` drops the last character — the embedding keeps that quirk
via `pySliceInt` with end index `-1`. -/
def get_statuscode (sipmsg : String) : String :=
  let s := sipmsg.toList
  let start := pyFind (" ".toList) s
  if start > -1 then
    let st := start.toNat + 1
    let e := pyFindStart (" ".toList) s st
    String.mk (pySliceInt s st e)
  else ""

/-- `SIPSessionCounter.is_indialog`: `none` models Python's `None` (no `To:`
or `t:` found), otherwise whether the substring `tag` occurs in the `To`
header line. -/
def is_indialog (sipmsg : String) : Option Bool :=
  let s := sipmsg.toList
  let f := pyFind ("To:".toList) s
  let f2 := if f = -1 then pyFind ("t:".toList) s else f
  if f2 = -1 then none
  else
    let st := f2.toNat
    let e := pyFindStart ("\n".toList) s st
    let header := if e = -1 then s.drop st else pySliceInt s st e
    if pyFind ("tag".toList) header = -1 then some false else some true

/-- `SIPSessionCounter.is_response`: `sipmsg.startswith("SIP/2.0")`. -/
def is_response (sipmsg : String) : Bool :=
  ("SIP/2.0".toList).isPrefixOf sipmsg.toList

/-- `statuscode.startswith(("3", "4", "5", "6"))`. -/
def startswith3456 (sc : String) : Bool :=
  ("3".toList).isPrefixOf sc.toList || ("4".toList).isPrefixOf sc.toList ||
    ("5".toList).isPrefixOf sc.toList || ("6".toList).isPrefixOf sc.toList

/-! ### Python dictionaries and sets -/

/-- A Python `dict` keyed by strings, as an insertion-ordered association
list with unique keys (the operations below preserve key uniqueness). -/
abbrev Dict (α : Type) := List (String × α)

/-- Dictionary lookup (first match). -/
def dget? {α : Type} : Dict α → String → Option α
  | [], _ => none
  | (k', v) :: t, k => if k' = k then some v else dget? t k

/-- `defaultdict(int)` read: missing keys default to `0`. -/
def dget0 (d : Dict Int) (k : String) : Int :=
  (dget? d k).getD 0

/-- Dictionary write: replace the first binding of `k`, or append a new one. -/
def dset {α : Type} : Dict α → String → α → Dict α
  | [], k, v => [(k, v)]
  | (k', v') :: t, k, v => if k' = k then (k, v) :: t else (k', v') :: dset t k v

/-- `d[k] += v` on a `defaultdict(int)`. -/
def dincr (d : Dict Int) (k : String) (v : Int) : Dict Int :=
  dset d k (dget0 d k + v)

/-- `d.pop(k, None)`: remove the binding of `k`. -/
def dpop {α : Type} : Dict α → String → Dict α
  | [], _ => []
  | (k', v) :: t, k => if k' = k then dpop t k else (k', v) :: dpop t k

/-- The keys of a dictionary, in order. -/
def dkeys {α : Type} (d : Dict α) : List String :=
  d.map Prod.fst

/-- `sum(d.values())`. -/
def dvaluesSum (d : Dict Int) : Int :=
  (d.map Prod.snd).sum

/-- Python `set.add` on a set of integers (duplicate-free list). -/
def iadd (l : List Int) (x : Int) : List Int :=
  if x ∈ l then l else x :: l

/-- Python `set.discard` on a set of integers. -/
def iremove : List Int → Int → List Int
  | [], _ => []
  | y :: t, x => if y = x then iremove t x else y :: iremove t x

/-- Python `set.discard` on a set of strings. -/
def sremove : List String → String → List String
  | [], _ => []
  | y :: t, x => if y = x then sremove t x else y :: sremove t x

/-! ### The `SIPSessionCounter` state and its operations -/

/-- A value of `self._callids[callid]`: the dict
`{"direction": ..., "cseqs": set(...)}`. -/
structure Entry where
  direction : String
  cseqs : List Int
  deriving DecidableEq

/-- The mutable state of a `SIPSessionCounter` instance.  `peak` models the
auxiliary attribute that `reset_peak` assigns (absent until the first
`reset_peak`, hence an `Option`); it is never read. -/
structure SIPSessionCounter where
  name : String
  counters : Dict Int
  peak_counters : Dict Int
  callids : Dict Entry
  established : List String
  peak : Option Int
  deriving DecidableEq

/-- The two exceptions that can escape `update`: the `ValueError` from
`int(l[0])` in `get_cseq`, and the `KeyError` from
`self._callids[callid]["direction"]` in the BYE branch. -/
inductive UpdErr where
  | valueError
  | keyError
  deriving DecidableEq

/-- `SIPSessionCounter.__init__`.  Python's `x or default` treats `None`,
`""` and empty dicts as falsy; an empty dict coincides with the default. -/
def SIPSessionCounter.init (name : Option String) (counters peak_counters : Option (Dict Int)) :
    SIPSessionCounter :=
  { name := match name with
      | none => "SessionCounter"
      | some n => if n = "" then "SessionCounter" else n
    counters := counters.getD []
    peak_counters := peak_counters.getD []
    callids := []
    established := []
    peak := none }

/-- A freshly constructed `SIPSessionCounter()`. -/
def freshC : SIPSessionCounter :=
  SIPSessionCounter.init none none none

/-- The `sessions_sum` property: `sum(self.counters.values())`. -/
def sessions_sum (s : SIPSessionCounter) : Int :=
  dvaluesSum s.counters

/-- The `peak_sessions_sum` property: `sum(self.peak_counters.values())`. -/
def peak_sessions_sum (s : SIPSessionCounter) : Int :=
  dvaluesSum s.peak_counters

/-- The tail of `update`: if the current total exceeds the peak total,
snapshot the counters into `peak_counters`. -/
def peak_step (s : SIPSessionCounter) : SIPSessionCounter :=
  if sessions_sum s > peak_sessions_sum s then { s with peak_counters := s.counters } else s

/-- The branch chain of `update` (lines 52–82 of the source), acting on the
already-extracted call id, status code, CSeq pair, To-tag flag and the
caller-supplied direction.  Returns the updated state and the change flag
`rv`; `peak_counters` is not touched here. -/
def dialog_step (s : SIPSessionCounter) (callid statuscode : String) (cseq : Int)
    (method : String) (indialog : Bool) (direction : String) :
    Except UpdErr (SIPSessionCounter × Nat) :=
  if method = "INVITE" then
    if statuscode = "100" ∧ indialog = false then
      match dget? s.callids callid with
      | none =>
        Except.ok ({ s with
          callids := dset s.callids callid ⟨reverse_direction direction, [cseq]⟩,
          counters := dincr s.counters (reverse_direction direction) 1 }, 1)
      | some e =>
        Except.ok ({ s with
          callids := dset s.callids callid ⟨e.direction, iadd e.cseqs cseq⟩ }, 0)
    else if statuscode = "200" ∧ (dget? s.callids callid).isSome = true ∧
        callid ∉ s.established then
      Except.ok ({ s with established := callid :: s.established }, 0)
    else if startswith3456 statuscode = true ∧ (dget? s.callids callid).isSome = true ∧
        callid ∉ s.established then
      match dget? s.callids callid with
      | none => Except.ok (s, 0)
      | some e =>
        if (iremove e.cseqs cseq).isEmpty then
          Except.ok ({ s with
            callids := dpop s.callids callid,
            counters := dincr s.counters e.direction (-1) }, 1)
        else
          Except.ok ({ s with
            callids := dset s.callids callid ⟨e.direction, iremove e.cseqs cseq⟩ }, 0)
    else Except.ok (s, 0)
  else if method = "BYE" then
    if callid ∈ s.established then
      match dget? s.callids callid with
      | none => Except.error UpdErr.keyError
      | some e =>
        Except.ok ({ s with established := sremove s.established callid,
                            callids := dpop s.callids callid,
                            counters := dincr s.counters e.direction (-1) }, 1)
    else Except.ok (s, 0)
  else Except.ok (s, 0)

/-- `direction = direction or "IN&OUT"`: `None` and the empty string are
falsy in Python, so both fall back to the default label. -/
def resolve_direction (dirOpt : Option String) : String :=
  match dirOpt with
  | none => "IN&OUT"
  | some d => if d = "" then "IN&OUT" else d

/-- `SIPSessionCounter.update`.  A non-response returns early (before the
peak snapshot); a `ValueError` in `get_cseq` propagates before any state
change; otherwise the branch chain runs and then the peak snapshot. -/
def update (s : SIPSessionCounter) (sipmsg : String) (dirOpt : Option String) :
    Except UpdErr (SIPSessionCounter × Nat) :=
  if is_response sipmsg = false then Except.ok (s, 0)
  else
    match get_cseq sipmsg with
    | none => Except.error UpdErr.valueError
    | some (cseq, method) =>
      match dialog_step s (get_callid sipmsg) (get_statuscode sipmsg) cseq method
          ((is_indialog sipmsg).getD false) (resolve_direction dirOpt) with
      | Except.error e => Except.error e
      | Except.ok (s1, rv) => Except.ok (peak_step s1, rv)

/-- `SIPSessionCounter.reset_peak`. -/
def reset_peak (s : SIPSessionCounter) : SIPSessionCounter :=
  { s with peak := some (sessions_sum s), peak_counters := s.counters }

/-- `SIPSessionCounter.clear`: `self.counters.clear()` then `reset_peak`. -/
def clear (s : SIPSessionCounter) : SIPSessionCounter :=
  reset_peak { s with counters := [] }

/-- The right operand of `__add__`: either another `SIPSessionCounter` or a
value of some other type (which fails the `type(self) != type(other)` check). -/
inductive PyVal where
  | counter (c : SIPSessionCounter)
  | other (tag : String)

/-- The two nested `for` loops of `__add__`: fold both dicts into a fresh
`defaultdict(int)` with `new[k] += v`. -/
def dmerge (d1 d2 : Dict Int) : Dict Int :=
  d2.foldl (fun acc p => dincr acc p.1 p.2) (d1.foldl (fun acc p => dincr acc p.1 p.2) [])

/-- `SIPSessionCounter.__add__`: raises `TypeError` (modelled as
`Except.error ()`) unless the operand is a `SIPSessionCounter`; otherwise a
brand-new counter with summed dicts and concatenated names (the constructor
leaves `_callids` and `_established` empty). -/
def sc_add (self : SIPSessionCounter) (o : PyVal) : Except Unit SIPSessionCounter :=
  match o with
  | PyVal.other _ => Except.error ()
  | PyVal.counter c =>
    Except.ok (SIPSessionCounter.init (some (self.name ++ "&" ++ c.name))
      (some (dmerge self.counters c.counters))
      (some (dmerge self.peak_counters c.peak_counters)))

/-- Feed a list of `(message, direction)` pairs through `update`.  When a
call raises, the state is unchanged (both exception sites fire before any
mutation), so the run continues from the same state. -/
def run (s : SIPSessionCounter) : List (String × Option String) → SIPSessionCounter
  | [] => s
  | (m, d) :: t =>
    match update s m d with
    | Except.ok (s', _) => run s' t
    | Except.error _ => run s t

/-- The largest value `sessions_sum` takes along a run, starting from the
current state and recording it after every (non-raising) call. -/
def histMax (s : SIPSessionCounter) : List (String × Option String) → Int
  | [] => sessions_sum s
  | (m, d) :: t =>
    match update s m d with
    | Except.ok (s', _) => max (sessions_sum s) (histMax s' t)
    | Except.error _ => max (sessions_sum s) (histMax s t)

/-- Number of pending dialog entries whose stored direction is `x`. -/
def dirCount : Dict Entry → String → Nat
  | [], _ => 0
  | (_, e) :: t, x => (if e.direction = x then 1 else 0) + dirCount t x

/-- Invariant of every state reachable from a fresh counter by `update`
calls: the pending-dialog map has unique keys, each direction's counter
equals the number of pending entries stored under that direction (hence is
non-negative), and every established call id still has a pending entry. -/
def CtrInv (s : SIPSessionCounter) : Prop :=
  (dkeys s.callids).Nodup ∧
  (∀ k, dget0 s.counters k = (dirCount s.callids k : Int)) ∧
  (∀ c ∈ s.established, (dget? s.callids c).isSome = true)

/-- Total of the values stored under key `k` (a single lookup when the keys
are unique); the per-direction contribution of one operand to `__add__`. -/
def keySum : Dict Int → String → Int
  | [], _ => 0
  | (k1, v) :: t, k => (if k1 = k then v else 0) + keySum t k

/-! ### Concrete messages and states used by the witnesses -/

/-- A dialog-initiating provisional response: status `100`, CSeq
`1 INVITE`, no tag on the `To` header. -/
def invite100Msg : String :=
  "SIP/2.0 100 Trying\nCall-ID: c1\nCSeq: 1 INVITE\nTo: <sip:b@x.com>\n"

/-- A failure-class final response (`486`) for CSeq `5 INVITE`. -/
def fail486Msg : String :=
  "SIP/2.0 486 Busy Here\nCall-ID: c1\nCSeq: 5 INVITE\nTo: <sip:b@x.com>;tag=9\n"

/-- A response whose CSeq method is `BYE` (termination bookkeeping). -/
def bye200Msg : String :=
  "SIP/2.0 200 OK\nCall-ID: c1\nCSeq: 2 BYE\nTo: <sip:b@x.com>;tag=9\n"

/-- A message whose `CSeq` header has a non-numeric sequence field: Python's
`int("x")` raises `ValueError` inside `get_cseq`. -/
def badCseqMsg : String :=
  "SIP/2.0 400 Bad Request\nCall-ID: c9\nCSeq: x INVITE\n"

/-- A state holding one pending (not yet established) dialog `c1` counted
under direction `IN` with pending sequence set `{5}`. -/
def pendingSt : SIPSessionCounter :=
  { name := "SessionCounter", counters := [("IN", 1)], peak_counters := [("IN", 1)],
    callids := [("c1", ⟨"IN", [5]⟩)], established := [], peak := none }

/-- A state holding one established dialog `c1` counted under direction
`IN`. -/
def establishedSt : SIPSessionCounter :=
  { name := "SessionCounter", counters := [("IN", 1)], peak_counters := [("IN", 1)],
    callids := [("c1", ⟨"IN", [1]⟩)], established := ["c1"], peak := none }

/-! ### Dictionary lemmas -/

theorem dget?_dset_self {α : Type} (d : Dict α) (k : String) (v : α) :
    dget? (dset d k v) k = some v := by
  induction d with
  | nil => simp [dset, dget?]
  | cons p t ih =>
    obtain ⟨k', v'⟩ := p
    by_cases h : k' = k
    · simp [dset, h, dget?]
    · simp [dset, h, dget?, ih]

theorem dget?_dset_ne {α : Type} (d : Dict α) (k : String) (v : α) (x : String) (h : x ≠ k) :
    dget? (dset d k v) x = dget? d x := by
  induction d with
  | nil => simp [dset, dget?, Ne.symm h]
  | cons p t ih =>
    obtain ⟨k', v'⟩ := p
    by_cases hk : k' = k
    · subst hk
      simp [dset, dget?, Ne.symm h]
    · by_cases hx : k' = x
      · subst hx
        simp [dset, dget?, hk, h]
      · simp [dset, dget?, hk, hx, ih]

theorem dget0_dincr (d : Dict Int) (k x : String) (v : Int) :
    dget0 (dincr d k v) x = dget0 d x + (if k = x then v else 0) := by
  by_cases h : k = x
  · subst h
    simp [dincr, dget0, dget?_dset_self]
  · rw [dincr, dget0, dget?_dset_ne _ _ _ _ (fun hh => h hh.symm), if_neg h, ← dget0]
    ring

theorem dget?_dpop_self {α : Type} (d : Dict α) (k : String) :
    dget? (dpop d k) k = none := by
  induction d with
  | nil => simp [dpop, dget?]
  | cons p t ih =>
    obtain ⟨k', v'⟩ := p
    by_cases h : k' = k <;> simp [dpop, h, dget?, ih]

theorem dget?_dpop_ne {α : Type} (d : Dict α) (k x : String) (h : x ≠ k) :
    dget? (dpop d k) x = dget? d x := by
  induction d with
  | nil => simp [dpop]
  | cons p t ih =>
    obtain ⟨k', v'⟩ := p
    by_cases hk : k' = k
    · subst hk
      simp [dpop, dget?, Ne.symm h, ih]
    · by_cases hx : k' = x
      · subst hx
        simp [dpop, dget?, hk, ih]
      · simp [dpop, dget?, hk, hx, ih]

theorem dkeys_cons {α : Type} (a : String) (b : α) (t : Dict α) :
    dkeys ((a, b) :: t) = a :: dkeys t := rfl

theorem dget?_eq_none_iff {α : Type} (d : Dict α) (k : String) :
    dget? d k = none ↔ k ∉ dkeys d := by
  induction d with
  | nil => simp [dget?, dkeys]
  | cons p t ih =>
    obtain ⟨k', v'⟩ := p
    by_cases h : k' = k
    · subst h
      simp [dget?, dkeys_cons]
    · simp [dget?, dkeys_cons, h, Ne.symm h, ih]

theorem dkeys_dset {α : Type} (d : Dict α) (k : String) (v : α) :
    dkeys (dset d k v) = if k ∈ dkeys d then dkeys d else dkeys d ++ [k] := by
  induction d with
  | nil => simp [dset, dkeys]
  | cons p t ih =>
    obtain ⟨k', v'⟩ := p
    by_cases h : k' = k
    · subst h
      simp [dset, dkeys_cons]
    · rw [dset, if_neg h, dkeys_cons, dkeys_cons, ih]
      by_cases hm : k ∈ dkeys t
      · simp [hm, Ne.symm h]
      · simp [hm, Ne.symm h]

theorem nodup_dkeys_dset {α : Type} (d : Dict α) (k : String) (v : α)
    (h : (dkeys d).Nodup) : (dkeys (dset d k v)).Nodup := by
  rw [dkeys_dset]
  split
  · exact h
  · rename_i hm
    simp [List.nodup_append, h, hm]

theorem nodup_dkeys_dpop {α : Type} (d : Dict α) (k : String)
    (h : (dkeys d).Nodup) : (dkeys (dpop d k)).Nodup := by
  induction d with
  | nil => simp [dpop, dkeys]
  | cons p t ih =>
    obtain ⟨k', v'⟩ := p
    simp only [dkeys, List.map_cons, List.nodup_cons] at h
    by_cases hk : k' = k
    · simp [dpop, hk, ih h.2]
    · simp only [dpop, if_neg hk, dkeys, List.map_cons, List.nodup_cons]
      refine ⟨fun hmem => h.1 ?_, ih h.2⟩
      · clear ih h
        induction t with
        | nil => simp [dpop, dkeys] at hmem
        | cons q u ihu =>
          obtain ⟨k2, v2⟩ := q
          by_cases h2 : k2 = k
          · simp only [dpop, if_pos h2] at hmem
            simp [dkeys, ihu hmem]
          · simp only [dpop, if_neg h2, dkeys, List.map_cons, List.mem_cons] at hmem ⊢
            rcases hmem with h3 | h3
            · exact Or.inl h3
            · exact Or.inr (ihu h3)

theorem dirCount_dset_none (d : Dict Entry) (k x : String) (e : Entry)
    (h : dget? d k = none) :
    dirCount (dset d k e) x = dirCount d x + (if e.direction = x then 1 else 0) := by
  induction d with
  | nil => simp [dset, dirCount]
  | cons p t ih =>
    obtain ⟨k1, e1⟩ := p
    by_cases hk : k1 = k
    · simp [dget?, hk] at h
    · simp only [dget?, if_neg hk] at h
      simp only [dset, if_neg hk, dirCount, ih h]
      omega

theorem dirCount_dset_some (d : Dict Entry) (k x : String) (e e' : Entry)
    (h : dget? d k = some e) (hd : e'.direction = e.direction) :
    dirCount (dset d k e') x = dirCount d x := by
  induction d with
  | nil => simp [dget?] at h
  | cons p t ih =>
    obtain ⟨k1, e1⟩ := p
    by_cases hk : k1 = k
    · simp only [dget?, if_pos hk] at h
      obtain rfl : e1 = e := by injection h
      simp [dset, hk, dirCount, hd]
    · simp only [dget?, if_neg hk] at h
      simp [dset, hk, dirCount, ih h]

theorem dpop_not_mem {α : Type} (d : Dict α) (k : String) (h : k ∉ dkeys d) :
    dpop d k = d := by
  induction d with
  | nil => simp [dpop]
  | cons p t ih =>
    obtain ⟨k1, v1⟩ := p
    simp only [dkeys, List.map_cons, List.mem_cons, not_or] at h
    simp [dpop, Ne.symm h.1, ih (by simpa [dkeys] using h.2)]

theorem dirCount_dpop (d : Dict Entry) (k x : String) (e : Entry)
    (h : dget? d k = some e) (hn : (dkeys d).Nodup) :
    dirCount d x = dirCount (dpop d k) x + (if e.direction = x then 1 else 0) := by
  induction d with
  | nil => simp [dget?] at h
  | cons p t ih =>
    obtain ⟨k1, e1⟩ := p
    simp only [dkeys, List.map_cons, List.nodup_cons] at hn
    by_cases hk : k1 = k
    · simp only [dget?, if_pos hk] at h
      obtain rfl : e1 = e := by injection h
      subst hk
      rw [dpop, if_pos rfl, dpop_not_mem t k1 hn.1]
      simp [dirCount]
      omega
    · simp only [dget?, if_neg hk] at h
      simp only [dpop, if_neg hk, dirCount, ih h hn.2]
      omega

theorem mem_sremove (l : List String) (k x : String) :
    x ∈ sremove l k ↔ x ∈ l ∧ x ≠ k := by
  induction l with
  | nil => simp [sremove]
  | cons y t ih =>
    rw [sremove]
    by_cases h : y = k
    · subst h
      rw [if_pos rfl, ih, List.mem_cons]
      constructor
      · rintro ⟨h1, h2⟩
        exact ⟨Or.inr h1, h2⟩
      · rintro ⟨h1 | h1, h2⟩
        · exact absurd h1 h2
        · exact ⟨h1, h2⟩
    · rw [if_neg h, List.mem_cons, List.mem_cons, ih]
      constructor
      · rintro (rfl | ⟨h1, h2⟩)
        · exact ⟨Or.inl rfl, h⟩
        · exact ⟨Or.inr h1, h2⟩
      · rintro ⟨rfl | h1, h2⟩
        · exact Or.inl rfl
        · exact Or.inr ⟨h1, h2⟩

/-! ### The main invariant of reachable states -/

theorem CtrInv_freshC : CtrInv freshC := by
  refine ⟨by simp [freshC, SIPSessionCounter.init, dkeys], ?_, by simp [freshC, SIPSessionCounter.init]⟩
  intro k
  simp [freshC, SIPSessionCounter.init, dget0, dget?, dirCount]

theorem CtrInv_create (s : SIPSessionCounter) (cid d0 : String) (q : Int)
    (hI : CtrInv s) (h : dget? s.callids cid = none) :
    CtrInv { s with
      callids := dset s.callids cid ⟨d0, [q]⟩,
      counters := dincr s.counters d0 1 } := by
  obtain ⟨h1, h2, h3⟩ := hI
  refine ⟨nodup_dkeys_dset _ _ _ h1, ?_, ?_⟩
  · intro k
    show dget0 (dincr s.counters d0 1) k = _
    rw [dget0_dincr, h2 k, dirCount_dset_none _ _ _ _ h]
    show _ = ((dirCount s.callids k + if d0 = k then 1 else 0 : Nat) : Int)
    by_cases hk : d0 = k <;> simp [hk]
  · intro c hc
    by_cases hck : c = cid
    · subst hck
      show (dget? (dset s.callids c ⟨d0, [q]⟩) c).isSome = true
      rw [dget?_dset_self]
      rfl
    · show (dget? (dset s.callids cid ⟨d0, [q]⟩) c).isSome = true
      rw [dget?_dset_ne _ _ _ _ hck]
      exact h3 c hc

theorem CtrInv_setentry (s : SIPSessionCounter) (cid : String) (cs : List Int) (e : Entry)
    (hI : CtrInv s) (h : dget? s.callids cid = some e) :
    CtrInv { s with callids := dset s.callids cid ⟨e.direction, cs⟩ } := by
  obtain ⟨h1, h2, h3⟩ := hI
  refine ⟨nodup_dkeys_dset _ _ _ h1, ?_, ?_⟩
  · intro k
    show dget0 s.counters k = ((dirCount (dset s.callids cid ⟨e.direction, cs⟩) k : Nat) : Int)
    rw [dirCount_dset_some s.callids cid k e ⟨e.direction, cs⟩ h rfl]
    exact h2 k
  · intro c hc
    by_cases hck : c = cid
    · subst hck
      show (dget? (dset s.callids c _) c).isSome = true
      rw [dget?_dset_self]
      rfl
    · show (dget? (dset s.callids cid _) c).isSome = true
      rw [dget?_dset_ne _ _ _ _ hck]
      exact h3 c hc

theorem CtrInv_estab (s : SIPSessionCounter) (cid : String)
    (hI : CtrInv s) (h : (dget? s.callids cid).isSome = true) :
    CtrInv { s with established := cid :: s.established } := by
  obtain ⟨h1, h2, h3⟩ := hI
  refine ⟨h1, h2, ?_⟩
  intro c hc
  rcases List.mem_cons.mp hc with rfl | hc
  · exact h
  · exact h3 c hc

theorem CtrInv_drop (s : SIPSessionCounter) (cid : String) (e : Entry)
    (hI : CtrInv s) (h : dget? s.callids cid = some e) (hne : cid ∉ s.established) :
    CtrInv { s with
      callids := dpop s.callids cid,
      counters := dincr s.counters e.direction (-1) } := by
  obtain ⟨h1, h2, h3⟩ := hI
  refine ⟨nodup_dkeys_dpop _ _ h1, ?_, ?_⟩
  · intro k
    show dget0 (dincr s.counters e.direction (-1)) k = _
    rw [dget0_dincr, h2 k]
    have hd := dirCount_dpop s.callids cid k e h h1
    by_cases hk : e.direction = k <;> simp [hk] at hd ⊢ <;> omega
  · intro c hc
    have hcc : c ≠ cid := fun hh => hne (hh ▸ hc)
    show (dget? (dpop s.callids cid) c).isSome = true
    rw [dget?_dpop_ne _ _ _ hcc]
    exact h3 c hc

theorem CtrInv_bye (s : SIPSessionCounter) (cid : String) (e : Entry)
    (hI : CtrInv s) (h : dget? s.callids cid = some e) :
    CtrInv { s with
      established := sremove s.established cid,
      callids := dpop s.callids cid,
      counters := dincr s.counters e.direction (-1) } := by
  obtain ⟨h1, h2, h3⟩ := hI
  refine ⟨nodup_dkeys_dpop _ _ h1, ?_, ?_⟩
  · intro k
    show dget0 (dincr s.counters e.direction (-1)) k = _
    rw [dget0_dincr, h2 k]
    have hd := dirCount_dpop s.callids cid k e h h1
    by_cases hk : e.direction = k <;> simp [hk] at hd ⊢ <;> omega
  · intro c hc
    obtain ⟨hc1, hc2⟩ := (mem_sremove _ _ _).mp hc
    show (dget? (dpop s.callids cid) c).isSome = true
    rw [dget?_dpop_ne _ _ _ hc2]
    exact h3 c hc1

theorem CtrInv_dialog_step (s : SIPSessionCounter) (cid sc : String) (q : Int)
    (mth : String) (ind : Bool) (dir : String) (s1 : SIPSessionCounter) (rv : Nat)
    (hI : CtrInv s)
    (h : dialog_step s cid sc q mth ind dir = Except.ok (s1, rv)) : CtrInv s1 := by
  unfold dialog_step at h
  split at h
  · -- method = "INVITE"
    split at h
    · -- 100 branch
      split at h
      · rename_i heq
        obtain ⟨rfl, rfl⟩ : _ ∧ _ := by
          simpa using h
        exact CtrInv_create s cid _ q hI heq
      · rename_i e heq
        obtain ⟨rfl, rfl⟩ : _ ∧ _ := by
          simpa using h
        exact CtrInv_setentry s cid _ e hI heq
    · split at h
      · rename_i hcond
        obtain ⟨rfl, rfl⟩ : _ ∧ _ := by
          simpa using h
        exact CtrInv_estab s cid hI hcond.2.1
      · split at h
        · rename_i hcond
          split at h
          · obtain ⟨rfl, rfl⟩ : _ ∧ _ := by
              simpa using h
            exact hI
          · rename_i e heq
            split at h
            · obtain ⟨rfl, rfl⟩ : _ ∧ _ := by
                simpa using h
              exact CtrInv_drop s cid e hI heq hcond.2.2
            · obtain ⟨rfl, rfl⟩ : _ ∧ _ := by
                simpa using h
              exact CtrInv_setentry s cid _ e hI heq
        · obtain ⟨rfl, rfl⟩ : _ ∧ _ := by
            simpa using h
          exact hI
  · split at h
    · -- method = "BYE"
      split at h
      · split at h
        · exact absurd h (by simp)
        · rename_i e heq
          obtain ⟨rfl, rfl⟩ : _ ∧ _ := by
            simpa using h
          exact CtrInv_bye s cid e hI heq
      · obtain ⟨rfl, rfl⟩ : _ ∧ _ := by
          simpa using h
        exact hI
    · obtain ⟨rfl, rfl⟩ : _ ∧ _ := by
        simpa using h
      exact hI

theorem peak_step_counters (s : SIPSessionCounter) : (peak_step s).counters = s.counters := by
  unfold peak_step
  split <;> rfl

theorem peak_step_callids (s : SIPSessionCounter) : (peak_step s).callids = s.callids := by
  unfold peak_step
  split <;> rfl

theorem peak_step_established (s : SIPSessionCounter) :
    (peak_step s).established = s.established := by
  unfold peak_step
  split <;> rfl

theorem CtrInv_peak_step (s : SIPSessionCounter) (hI : CtrInv s) : CtrInv (peak_step s) := by
  unfold peak_step
  split
  · exact hI
  · exact hI

theorem CtrInv_update (s : SIPSessionCounter) (m : String) (d : Option String)
    (s' : SIPSessionCounter) (rv : Nat) (hI : CtrInv s)
    (h : update s m d = Except.ok (s', rv)) : CtrInv s' := by
  unfold update at h
  split at h
  · obtain ⟨rfl, rfl⟩ : _ ∧ _ := by
      simpa using h
    exact hI
  · split at h
    · exact absurd h (by simp)
    · rename_i cm cseq mth hcm
      split at h
      · exact absurd h (by simp)
      · rename_i s1 rv1 hds
        obtain ⟨rfl, rfl⟩ : _ ∧ _ := by
          simpa using h
        exact CtrInv_peak_step s1 (CtrInv_dialog_step s _ _ _ _ _ _ s1 rv1 hI hds)

theorem CtrInv_run (s : SIPSessionCounter) (msgs : List (String × Option String))
    (hI : CtrInv s) : CtrInv (run s msgs) := by
  induction msgs generalizing s with
  | nil => exact hI
  | cons p t ih =>
    obtain ⟨m, d⟩ := p
    rw [run]
    cases hu : update s m d with
    | ok pr => exact ih pr.1 (CtrInv_update s m d pr.1 pr.2 hI hu)
    | error e => exact ih s hI

/-! ### Peak-snapshot lemmas -/

theorem peak_step_peakSum (s : SIPSessionCounter) :
    peak_sessions_sum (peak_step s) = max (peak_sessions_sum s) (sessions_sum s) := by
  unfold peak_step
  split
  · rename_i hlt
    simp only [peak_sessions_sum, sessions_sum] at *
    omega
  · rename_i hlt
    simp only [peak_sessions_sum, sessions_sum] at *
    omega

theorem peak_step_sum_le (s : SIPSessionCounter) :
    sessions_sum (peak_step s) ≤ peak_sessions_sum (peak_step s) := by
  have h1 := peak_step_peakSum s
  have h2 : sessions_sum (peak_step s) = sessions_sum s := by
    unfold sessions_sum
    rw [peak_step_counters]
  omega

theorem peak_step_idem (s : SIPSessionCounter) : peak_step (peak_step s) = peak_step s := by
  have h := peak_step_sum_le s
  conv_lhs => rw [peak_step]
  rw [if_neg (by omega)]

theorem dialog_step_peak_counters (s : SIPSessionCounter) (cid sc : String) (q : Int)
    (mth : String) (ind : Bool) (dir : String) (s1 : SIPSessionCounter) (rv : Nat)
    (h : dialog_step s cid sc q mth ind dir = Except.ok (s1, rv)) :
    s1.peak_counters = s.peak_counters := by
  unfold dialog_step at h
  repeat' split at h
  all_goals first
    | exact Except.noConfusion h
    | (obtain ⟨rfl, rfl⟩ : _ ∧ _ := by simpa using h
       rfl)

/-- Every successful `update` either returns the state unchanged (the early
return for non-responses) or ends with the peak snapshot rule. -/
theorem update_cases_peak (s : SIPSessionCounter) (m : String) (d : Option String)
    (s' : SIPSessionCounter) (rv : Nat)
    (h : update s m d = Except.ok (s', rv)) :
    s' = s ∨ peak_sessions_sum s' = max (peak_sessions_sum s) (sessions_sum s') := by
  unfold update at h
  split at h
  · obtain ⟨rfl, rfl⟩ : _ ∧ _ := by
      simpa using h
    exact Or.inl rfl
  · split at h
    · exact absurd h (by simp)
    · rename_i cm cseq mth hcm
      split at h
      · exact absurd h (by simp)
      · rename_i s1 rv1 hds
        obtain ⟨rfl, rfl⟩ : _ ∧ _ := by
          simpa using h
        refine Or.inr ?_
        have hp := peak_step_peakSum s1
        have hpc : peak_sessions_sum s1 = peak_sessions_sum s := by
          unfold peak_sessions_sum
          rw [dialog_step_peak_counters s _ _ _ _ _ _ s1 rv1 hds]
        have hsc : sessions_sum (peak_step s1) = sessions_sum s1 := by
          unfold sessions_sum
          rw [peak_step_counters]
        omega

theorem update_sum_le_peak (s : SIPSessionCounter) (m : String) (d : Option String)
    (s' : SIPSessionCounter) (rv : Nat)
    (hle : sessions_sum s ≤ peak_sessions_sum s)
    (h : update s m d = Except.ok (s', rv)) :
    sessions_sum s' ≤ peak_sessions_sum s' := by
  rcases update_cases_peak s m d s' rv h with rfl | hmax
  · exact hle
  · omega

theorem run_cons_ok (s : SIPSessionCounter) (m : String) (d : Option String)
    (s' : SIPSessionCounter) (rv : Nat) (t : List (String × Option String))
    (hu : update s m d = Except.ok (s', rv)) : run s ((m, d) :: t) = run s' t := by
  rw [run, hu]

theorem run_cons_err (s : SIPSessionCounter) (m : String) (d : Option String)
    (e : UpdErr) (t : List (String × Option String))
    (hu : update s m d = Except.error e) : run s ((m, d) :: t) = run s t := by
  rw [run, hu]

theorem histMax_cons_ok (s : SIPSessionCounter) (m : String) (d : Option String)
    (s' : SIPSessionCounter) (rv : Nat) (t : List (String × Option String))
    (hu : update s m d = Except.ok (s', rv)) :
    histMax s ((m, d) :: t) = max (sessions_sum s) (histMax s' t) := by
  rw [histMax, hu]

theorem histMax_cons_err (s : SIPSessionCounter) (m : String) (d : Option String)
    (e : UpdErr) (t : List (String × Option String))
    (hu : update s m d = Except.error e) :
    histMax s ((m, d) :: t) = max (sessions_sum s) (histMax s t) := by
  rw [histMax, hu]

theorem histMax_ge (s : SIPSessionCounter) (msgs : List (String × Option String)) :
    sessions_sum s ≤ histMax s msgs := by
  cases msgs with
  | nil => exact le_refl _
  | cons p t =>
    obtain ⟨m, d⟩ := p
    rw [histMax]
    cases update s m d <;> simp

theorem run_peakSum (msgs : List (String × Option String)) :
    ∀ s : SIPSessionCounter, sessions_sum s ≤ peak_sessions_sum s →
      peak_sessions_sum (run s msgs) = max (peak_sessions_sum s) (histMax s msgs) := by
  induction msgs with
  | nil =>
    intro s h
    rw [run, histMax]
    omega
  | cons p t ih =>
    intro s h
    obtain ⟨m, d⟩ := p
    cases hu : update s m d with
    | error e =>
      rw [run_cons_err s m d e t hu, histMax_cons_err s m d e t hu]
      have h1 := ih s h
      have h2 := histMax_ge s t
      omega
    | ok pr =>
      obtain ⟨s', rv⟩ := pr
      rw [run_cons_ok s m d s' rv t hu, histMax_cons_ok s m d s' rv t hu]
      rcases update_cases_peak s m d s' rv hu with rfl | hmax
      · have h1 := ih s' h
        have h2 := histMax_ge s' t
        omega
      · have hle : sessions_sum s' ≤ peak_sessions_sum s' := by omega
        have h1 := ih s' hle
        have h2 := histMax_ge s' t
        omega

theorem run_append (s : SIPSessionCounter) (l1 l2 : List (String × Option String)) :
    run s (l1 ++ l2) = run (run s l1) l2 := by
  induction l1 generalizing s with
  | nil => rfl
  | cons p t ih =>
    obtain ⟨m, d⟩ := p
    rw [List.cons_append, run, run]
    cases update s m d with
    | ok pr => exact ih pr.1
    | error e => exact ih s

/-! ### Merge lemmas -/

theorem dget0_foldl_dincr (l : Dict Int) (acc : Dict Int) (k : String) :
    dget0 (l.foldl (fun a p => dincr a p.1 p.2) acc) k = dget0 acc k + keySum l k := by
  induction l generalizing acc with
  | nil => simp [keySum]
  | cons p t ih =>
    obtain ⟨k1, v⟩ := p
    rw [List.foldl_cons, ih, keySum, dget0_dincr]
    by_cases hk : k1 = k <;> simp [hk] <;> ring

theorem dget0_dmerge (d1 d2 : Dict Int) (k : String) :
    dget0 (dmerge d1 d2) k = keySum d1 k + keySum d2 k := by
  unfold dmerge
  rw [dget0_foldl_dincr, dget0_foldl_dincr]
  simp [dget0, dget?]

/-! ### The BYE branch can never hit its KeyError from a reachable state -/

theorem startswith3456_ne (sc : String) (h : startswith3456 sc = true) :
    sc ≠ "100" ∧ sc ≠ "200" := by
  constructor <;> rintro rfl <;> exact absurd h (by decide)

theorem dialog_step_no_keyError (s : SIPSessionCounter) (cid sc : String) (q : Int)
    (mth : String) (ind : Bool) (dir : String) (hI : CtrInv s) :
    dialog_step s cid sc q mth ind dir ≠ Except.error UpdErr.keyError := by
  intro h
  unfold dialog_step at h
  repeat' split at h
  all_goals first
    | exact Except.noConfusion h
    | (rename_i hmem x heq
       have hs := hI.2.2 cid hmem
       rw [heq] at hs
       exact Bool.noConfusion hs)

theorem update_no_keyError (s : SIPSessionCounter) (m : String) (d : Option String)
    (hI : CtrInv s) : update s m d ≠ Except.error UpdErr.keyError := by
  intro h
  unfold update at h
  split at h
  · exact Except.noConfusion h
  · split at h
    · injection h with h'
      exact UpdErr.noConfusion h'
    · split at h
      · rename_i e hds
        injection h with h'
        exact dialog_step_no_keyError s _ _ _ _ _ _ hI (h' ▸ hds)
      · exact Except.noConfusion h

/-! ### The claims -/

/-- C1: what `reverse_direction` actually computes.  The conditional
`return "IN" if direction == "OUT" else "IN"` returns `"IN"` in both arms,
so the input `"IN"` maps to `"IN"`, not to `"OUT"` as the specification's
swap would require; `"OUT"` and `"IN&OUT"` behave as specified. -/
theorem reverse_direction_eval :
    reverse_direction "IN" = "IN" ∧ reverse_direction "OUT" = "IN" ∧
      reverse_direction "IN&OUT" = "IN&OUT" :=
  ⟨rfl, rfl, rfl⟩

/-- C2: for every sequence of `update` calls (any message texts, any
direction labels) applied to a freshly constructed counter, every
direction's entry in the counters dictionary is non-negative after every
call — each prefix of a message sequence is itself a message sequence, so
quantifying over the whole sequence covers every intermediate state. -/
theorem run_counters_nonneg (msgs : List (String × Option String)) (k : String) :
    0 ≤ dget0 (run freshC msgs).counters k := by
  obtain ⟨-, h2, -⟩ := CtrInv_run freshC msgs CtrInv_freshC
  rw [h2 k]
  exact Int.natCast_nonneg _

/-- C3: the peak-counters sum never decreases from one `update` call to the
next, always equals the maximum value the counters sum has ever taken along
the run (`histMax` records the initial sum and the sum after every call),
and `reset_peak` (and `clear`, which calls it) makes it the then-current
counters sum. -/
theorem peak_sum_claims :
    (∀ (msgs : List (String × Option String)) (m : String) (d : Option String),
      peak_sessions_sum (run freshC msgs) ≤
        peak_sessions_sum (run freshC (msgs ++ [(m, d)]))) ∧
    (∀ msgs : List (String × Option String),
      peak_sessions_sum (run freshC msgs) = histMax freshC msgs) ∧
    (∀ s : SIPSessionCounter, peak_sessions_sum (reset_peak s) = sessions_sum s) ∧
    (∀ s : SIPSessionCounter, peak_sessions_sum (clear s) = sessions_sum (clear s)) := by
  have hfresh : sessions_sum freshC ≤ peak_sessions_sum freshC := le_refl _
  have hmaxeq : ∀ msgs : List (String × Option String),
      peak_sessions_sum (run freshC msgs) = histMax freshC msgs := by
    intro msgs
    rw [run_peakSum msgs freshC hfresh]
    have h1 := histMax_ge freshC msgs
    have h2 : peak_sessions_sum freshC = 0 := rfl
    have h3 : sessions_sum freshC = 0 := rfl
    omega
  refine ⟨?_, hmaxeq, fun s => rfl, fun s => rfl⟩
  intro msgs m d
  rw [run_append]
  cases hu : update (run freshC msgs) m d with
  | error e =>
    rw [run_cons_err _ m d e [] hu]
    exact le_refl _
  | ok pr =>
    obtain ⟨s', rv⟩ := pr
    rw [run_cons_ok _ m d s' rv [] hu]
    show peak_sessions_sum (run freshC msgs) ≤ peak_sessions_sum s'
    rcases update_cases_peak _ m d s' rv hu with heq | hmax
    · rw [heq]
    · omega

/-- C7: `get_cseq` is claimed to return sentinel values and never raise on
malformed sequencing headers, but on a header whose first field is not an
integer literal (`CSeq: x INVITE`) the code reaches `int(l[0])`, which
raises `ValueError` (modelled by `none`), and `update` propagates it
instead of returning a change flag. -/
theorem get_cseq_bad_number_raises :
    get_cseq badCseqMsg = none ∧
      update freshC badCseqMsg none = Except.error UpdErr.valueError :=
  ⟨rfl, rfl⟩

/-- C8: merging is commutative up to per-direction sums: for any two
counters, `a + b` and `b + a` both succeed and agree on every direction's
entry of both the counters and the peak counters. -/
theorem sc_add_comm_sums (a b : SIPSessionCounter) (k : String) :
    ∃ cab cba, sc_add a (PyVal.counter b) = Except.ok cab ∧
      sc_add b (PyVal.counter a) = Except.ok cba ∧
      dget0 cab.counters k = dget0 cba.counters k ∧
      dget0 cab.peak_counters k = dget0 cba.peak_counters k := by
  refine ⟨_, _, rfl, rfl, ?_, ?_⟩
  · show dget0 (dmerge a.counters b.counters) k = dget0 (dmerge b.counters a.counters) k
    rw [dget0_dmerge, dget0_dmerge]
    ring
  · show dget0 (dmerge a.peak_counters b.peak_counters) k =
      dget0 (dmerge b.peak_counters a.peak_counters) k
    rw [dget0_dmerge, dget0_dmerge]
    ring

/-- C9: `__add__` checks `type(self) != type(other)` before doing anything
else, so merging with an operand that is not a `SIPSessionCounter` is a
`TypeError` surfaced to the caller and no merged counter is produced (the
embedding is pure — the Python code builds fresh dicts and never writes to
either operand, so neither operand changes in any case). -/
theorem sc_add_type_mismatch (a : SIPSessionCounter) (tag : String) :
    sc_add a (PyVal.other tag) = Except.error () :=
  rfl

/-- C10: in every state reachable from a fresh counter by `update` calls,
every call id in the established set still has a pending-dialog entry, so
the BYE branch's `self._callids[callid]["direction"]` lookup cannot fail:
no `update` call from such a state returns the `KeyError` outcome. -/
theorem run_established_have_entries (msgs : List (String × Option String)) :
    (∀ c ∈ (run freshC msgs).established,
      (dget? (run freshC msgs).callids c).isSome = true) ∧
    (∀ (m : String) (d : Option String),
      update (run freshC msgs) m d ≠ Except.error UpdErr.keyError) := by
  have hI := CtrInv_run freshC msgs CtrInv_freshC
  exact ⟨hI.2.2, fun m d => update_no_keyError _ m d hI⟩

/-- C10 witness: the reachable state after one dialog-initiating update has
its established set covered by pending entries and cannot produce the
KeyError outcome. -/
theorem run_established_have_entries_w :
    (∀ c ∈ (run freshC [(invite100Msg, some "OUT")]).established,
      (dget? (run freshC [(invite100Msg, some "OUT")]).callids c).isSome = true) ∧
    (∀ (m : String) (d : Option String),
      update (run freshC [(invite100Msg, some "OUT")]) m d ≠
        Except.error UpdErr.keyError) :=
  run_established_have_entries [(invite100Msg, some "OUT")]

/-- C4: a response with CSeq method `INVITE`, status `100` and no dialog
tag, for a call id with no pending entry, given direction `OUT`, bumps
`counters["IN"]` by one (here `reverse_direction "OUT" = "IN"` is the arm
of the conditional that is correct), creates the pending entry and
returns 1. -/
theorem update_invite100_unseen (s : SIPSessionCounter) (m : String) (n : Int)
    (hresp : is_response m = true)
    (hsc : get_statuscode m = "100")
    (hcseq : get_cseq m = some (n, "INVITE"))
    (hind : (is_indialog m).getD false = false)
    (hcid : dget? s.callids (get_callid m) = none) :
    ∃ s', update s m (some "OUT") = Except.ok (s', 1) ∧
      dget0 s'.counters "IN" = dget0 s.counters "IN" + 1 ∧
      dget? s'.callids (get_callid m) = some ⟨"IN", [n]⟩ := by
  have hds : dialog_step s (get_callid m) (get_statuscode m) n "INVITE"
      ((is_indialog m).getD false) (resolve_direction (some "OUT")) =
      Except.ok ({ s with
        callids := dset s.callids (get_callid m) ⟨"IN", [n]⟩,
        counters := dincr s.counters "IN" 1 }, 1) := by
    unfold dialog_step
    rw [hsc, hind, hcid]
    simp [reverse_direction, resolve_direction]
  have hu : update s m (some "OUT") =
      Except.ok (peak_step { s with
        callids := dset s.callids (get_callid m) ⟨"IN", [n]⟩,
        counters := dincr s.counters "IN" 1 }, 1) := by
    unfold update
    rw [hresp, hcseq]
    simp only [Bool.true_eq_false, if_false]
    rw [hds]
  refine ⟨_, hu, ?_, ?_⟩
  · rw [peak_step_counters]
    show dget0 (dincr s.counters "IN" 1) "IN" = _
    rw [dget0_dincr]
    simp
  · rw [peak_step_callids]
    exact dget?_dset_self _ _ _

/-- C4 witness: a fresh counter fed a concrete `100`/`INVITE` provisional
response with direction `OUT`. -/
theorem update_invite100_unseen_w :
    ∃ s', update freshC invite100Msg (some "OUT") = Except.ok (s', 1) ∧
      dget0 s'.counters "IN" = dget0 freshC.counters "IN" + 1 ∧
      dget? s'.callids (get_callid invite100Msg) = some ⟨"IN", [1]⟩ :=
  update_invite100_unseen freshC invite100Msg 1 (by decide) (by decide) (by decide)
    (by decide) (by decide)

/-- C5: a failure-class (`3xx`–`6xx`) `INVITE` response for a pending,
not-established call id removes that sequence number from the pending set;
if the set empties, the counter of the direction stored in the entry (not
the caller-supplied one — `dopt` is arbitrary here) is decremented, the
entry is removed and 1 is returned; otherwise 0 is returned, the counters
are unchanged and the entry keeps the shrunken set. -/
theorem update_invite_failure_pending (s : SIPSessionCounter) (m : String) (n : Int)
    (e : Entry) (dopt : Option String)
    (hresp : is_response m = true)
    (hsw : startswith3456 (get_statuscode m) = true)
    (hcseq : get_cseq m = some (n, "INVITE"))
    (hcid : dget? s.callids (get_callid m) = some e)
    (hest : get_callid m ∉ s.established) :
    (iremove e.cseqs n = [] →
      ∃ s', update s m dopt = Except.ok (s', 1) ∧
        dget0 s'.counters e.direction = dget0 s.counters e.direction - 1 ∧
        dget? s'.callids (get_callid m) = none) ∧
    (iremove e.cseqs n ≠ [] →
      ∃ s', update s m dopt = Except.ok (s', 0) ∧
        s'.counters = s.counters ∧
        dget? s'.callids (get_callid m) = some ⟨e.direction, iremove e.cseqs n⟩) := by
  obtain ⟨h100, h200⟩ := startswith3456_ne _ hsw
  constructor
  · intro hempty
    have hds : dialog_step s (get_callid m) (get_statuscode m) n "INVITE"
        ((is_indialog m).getD false) (resolve_direction dopt) =
        Except.ok ({ s with
          callids := dpop s.callids (get_callid m),
          counters := dincr s.counters e.direction (-1) }, 1) := by
      unfold dialog_step
      rw [hcid]
      simp [h100, h200, hsw, hest, hempty]
    have hu : update s m dopt =
        Except.ok (peak_step { s with
          callids := dpop s.callids (get_callid m),
          counters := dincr s.counters e.direction (-1) }, 1) := by
      unfold update
      rw [hresp, hcseq]
      simp only [Bool.true_eq_false, if_false]
      rw [hds]
    refine ⟨_, hu, ?_, ?_⟩
    · rw [peak_step_counters]
      show dget0 (dincr s.counters e.direction (-1)) e.direction = _
      rw [dget0_dincr, if_pos rfl]
      ring
    · rw [peak_step_callids]
      exact dget?_dpop_self _ _
  · intro hne
    have hne' : (iremove e.cseqs n).isEmpty = false := by
      cases hcs : iremove e.cseqs n
      · exact absurd hcs hne
      · rfl
    have hds : dialog_step s (get_callid m) (get_statuscode m) n "INVITE"
        ((is_indialog m).getD false) (resolve_direction dopt) =
        Except.ok ({ s with
          callids := dset s.callids (get_callid m) ⟨e.direction, iremove e.cseqs n⟩ }, 0) := by
      unfold dialog_step
      rw [hcid]
      simp [h100, h200, hsw, hest, hne']
    have hu : update s m dopt =
        Except.ok (peak_step { s with
          callids := dset s.callids (get_callid m) ⟨e.direction, iremove e.cseqs n⟩ }, 0) := by
      unfold update
      rw [hresp, hcseq]
      simp only [Bool.true_eq_false, if_false]
      rw [hds]
    refine ⟨_, hu, ?_, ?_⟩
    · rw [peak_step_counters]
    · rw [peak_step_callids]
      exact dget?_dset_self _ _ _

/-- C5 witness: a pending dialog with sequence set `{5}` receiving a `486`
failure for CSeq `5 INVITE` (the set empties, so the first branch fires). -/
theorem update_invite_failure_pending_w :
    (iremove (Entry.mk "IN" [5]).cseqs 5 = [] →
      ∃ s', update pendingSt fail486Msg none = Except.ok (s', 1) ∧
        dget0 s'.counters (Entry.mk "IN" [5]).direction =
          dget0 pendingSt.counters (Entry.mk "IN" [5]).direction - 1 ∧
        dget? s'.callids (get_callid fail486Msg) = none) ∧
    (iremove (Entry.mk "IN" [5]).cseqs 5 ≠ [] →
      ∃ s', update pendingSt fail486Msg none = Except.ok (s', 0) ∧
        s'.counters = pendingSt.counters ∧
        dget? s'.callids (get_callid fail486Msg) =
          some ⟨(Entry.mk "IN" [5]).direction, iremove (Entry.mk "IN" [5]).cseqs 5⟩) :=
  update_invite_failure_pending pendingSt fail486Msg 5 (Entry.mk "IN" [5]) none
    (by decide) (by decide) (by decide) (by decide) (by decide)

/-- A `BYE`-method response for a call id that is not established is a
no-op on a state the peak snapshot already fixed. -/
theorem update_bye_not_established (s0 : SIPSessionCounter) (m2 : String) (n2 : Int)
    (d2 : Option String) (hstable : peak_step s0 = s0)
    (hr2 : is_response m2 = true) (hq2 : get_cseq m2 = some (n2, "BYE"))
    (hnm : get_callid m2 ∉ s0.established) :
    update s0 m2 d2 = Except.ok (s0, 0) := by
  have hds2 : dialog_step s0 (get_callid m2) (get_statuscode m2) n2 "BYE"
      ((is_indialog m2).getD false) (resolve_direction d2) = Except.ok (s0, 0) := by
    unfold dialog_step
    simp [hnm]
  unfold update
  rw [hr2, hq2]
  simp only [Bool.true_eq_false, if_false]
  rw [hds2]
  show Except.ok (peak_step s0, 0) = Except.ok (s0, 0)
  rw [hstable]

/-- C6: a response whose CSeq method is `BYE`, for an established call id,
decrements the counter of the direction stored in the entry, removes the
call id from both the established set and the pending map, and returns 1;
afterwards any further such termination message for the same call id
returns 0 and leaves the state completely unchanged. -/
theorem update_bye_established (s : SIPSessionCounter) (m : String) (n : Int)
    (e : Entry) (dopt : Option String)
    (hresp : is_response m = true)
    (hcseq : get_cseq m = some (n, "BYE"))
    (hest : get_callid m ∈ s.established)
    (hcid : dget? s.callids (get_callid m) = some e) :
    ∃ s', update s m dopt = Except.ok (s', 1) ∧
      dget0 s'.counters e.direction = dget0 s.counters e.direction - 1 ∧
      get_callid m ∉ s'.established ∧
      dget? s'.callids (get_callid m) = none ∧
      (∀ (m2 : String) (n2 : Int) (d2 : Option String), get_callid m2 = get_callid m →
        is_response m2 = true → get_cseq m2 = some (n2, "BYE") →
        update s' m2 d2 = Except.ok (s', 0)) := by
  have hds : dialog_step s (get_callid m) (get_statuscode m) n "BYE"
      ((is_indialog m).getD false) (resolve_direction dopt) =
      Except.ok ({ s with
        established := sremove s.established (get_callid m),
        callids := dpop s.callids (get_callid m),
        counters := dincr s.counters e.direction (-1) }, 1) := by
    unfold dialog_step
    rw [hcid]
    simp [hest]
  have hu : update s m dopt =
      Except.ok (peak_step { s with
        established := sremove s.established (get_callid m),
        callids := dpop s.callids (get_callid m),
        counters := dincr s.counters e.direction (-1) }, 1) := by
    unfold update
    rw [hresp, hcseq]
    simp only [Bool.true_eq_false, if_false]
    rw [hds]
  have hnotest : get_callid m ∉
      (peak_step { s with
        established := sremove s.established (get_callid m),
        callids := dpop s.callids (get_callid m),
        counters := dincr s.counters e.direction (-1) }).established := by
    rw [peak_step_established]
    intro hmem
    exact ((mem_sremove _ _ _).mp hmem).2 rfl
  refine ⟨_, hu, ?_, hnotest, ?_, ?_⟩
  · rw [peak_step_counters]
    show dget0 (dincr s.counters e.direction (-1)) e.direction = _
    rw [dget0_dincr, if_pos rfl]
    ring
  · rw [peak_step_callids]
    exact dget?_dpop_self _ _
  · intro m2 n2 d2 hc2 hr2 hq2
    refine update_bye_not_established _ m2 n2 d2 (peak_step_idem _) hr2 hq2 ?_
    rw [hc2]
    exact hnotest

/-- C6 witness: an established dialog `c1` torn down by a concrete `BYE`
response; the same message re-delivered afterwards is a no-op returning 0. -/
theorem update_bye_established_w :
    ∃ s', update establishedSt bye200Msg none = Except.ok (s', 1) ∧
      dget0 s'.counters (Entry.mk "IN" [1]).direction =
        dget0 establishedSt.counters (Entry.mk "IN" [1]).direction - 1 ∧
      get_callid bye200Msg ∉ s'.established ∧
      dget? s'.callids (get_callid bye200Msg) = none ∧
      (∀ (m2 : String) (n2 : Int) (d2 : Option String),
        get_callid m2 = get_callid bye200Msg →
        is_response m2 = true → get_cseq m2 = some (n2, "BYE") →
        update s' m2 d2 = Except.ok (s', 0)) :=
  update_bye_established establishedSt bye200Msg 2 (Entry.mk "IN" [1]) none
    (by decide) (by decide) (by decide) (by decide)

example : is_response "SIP/2.0 100 Trying\nCall-ID: c1\nCSeq: 1 INVITE\n" = true := by decide
example : get_statuscode "SIP/2.0 100 Trying\nCall-ID: c1\nCSeq: 1 INVITE\n" = "100" := by decide
example : get_callid "SIP/2.0 100 Trying\nCall-ID: c1\nCSeq: 1 INVITE\n" = "c1" := by decide
example : get_cseq "SIP/2.0 100 Trying\nCall-ID: c1\nCSeq: 1 INVITE\n" = some (1, "INVITE") := by
  decide
example : get_cseq "SIP/2.0 400 Bad\nCSeq: x INVITE\n" = none := by decide
example : get_cseq "no header here" = some (-1, "") := by decide
example : is_indialog "SIP/2.0 100 Trying\nTo: <sip:b@x.com>\n" = some false := by decide
example : is_indialog "SIP/2.0 100 Trying\nTo: <sip:b@x.com>;tag=99\n" = some true := by decide
example : is_indialog "SIP/2.0 100 Trying\nFrom: a\n" = none := by decide
example : get_statuscode "SIP/2.0 100" = "10" := by decide
